import Mathlib

/-!
Verification of the vfs9 library: the 9P2000 wire-format bitfield codecs
(FileType, Permissions, OpenMode, FileMode), the Qid identity triple, and
the fid lifecycle contract of the File capability trait.

Machine integers (u8, u32) are embedded as Nat; every bit operation of the
source acts on the low bits only, and the one truncating cast in the source
(the Rust expression (fields >> 24) as u8) is modelled by an explicit % 256.
Fallible operations return Except Vfs9Error, mirroring the Result type of
the source.
-/

/-- Error marker of the library, a unit struct carrying no context. -/
structure Vfs9Error
deriving DecidableEq

deriving instance DecidableEq for Except

/-- Five independent boolean flags of a 9P2000 file type.
Packed into one byte by from_bits and to_bits below. -/
structure FileType where
  is_dir : Bool
  is_append_only : Bool
  is_exclusive : Bool
  is_auth : Bool
  is_temporary : Bool
deriving DecidableEq, Fintype

/-- Decode a FileType from a byte; bit 28 of the enclosing 32-bit word
(bit 4 of this byte) is skipped for historical reasons, as are bits 1 and 0. -/
def FileType.from_bits (b : Nat) : FileType where
  is_dir := b &&& 0b10000000 != 0
  is_append_only := b &&& 0b01000000 != 0
  is_exclusive := b &&& 0b00100000 != 0
  is_auth := b &&& 0b00001000 != 0
  is_temporary := b &&& 0b00000100 != 0

/-- Encode a FileType into a byte, the inverse OR of from_bits. -/
def FileType.to_bits (f : FileType) : Nat :=
  let b : Nat := 0x00
  let b := if f.is_dir then b ||| 0b10000000 else b
  let b := if f.is_append_only then b ||| 0b01000000 else b
  let b := if f.is_exclusive then b ||| 0b00100000 else b
  let b := if f.is_auth then b ||| 0b00001000 else b
  let b := if f.is_temporary then b ||| 0b00000100 else b
  b

/-- Structural equality of FileType as generated by the derived PartialEq
of the source: all five flags are compared. -/
def FileType.beq (a b : FileType) : Bool :=
  a.is_dir == b.is_dir &&
  a.is_append_only == b.is_append_only &&
  a.is_exclusive == b.is_exclusive &&
  a.is_auth == b.is_auth &&
  a.is_temporary == b.is_temporary

/-- The server's unique identification of a file: type byte, version, path. -/
structure Qid where
  file_type : FileType
  version : Nat
  path : Nat
deriving DecidableEq

/-- Structural equality of Qid as generated by the derived PartialEq of the
source: the three components are compared in declaration order. -/
def Qid.beq (a b : Qid) : Bool :=
  FileType.beq a.file_type b.file_type &&
  a.version == b.version &&
  a.path == b.path

/-- The four I/O submodes of a 9P2000 open request, in source declaration
order; the wire mapping lives in try_from. -/
inductive OpenSubMode where
  | Write : OpenSubMode
  | Read : OpenSubMode
  | ReadWrite : OpenSubMode
  | Execute : OpenSubMode
deriving DecidableEq, Fintype

/-- Decode the low two bits of an open-mode byte into a submode.
The catch-all error arm is unreachable for two-bit values but kept,
as in the source, to make the codec total by contract. -/
def OpenSubMode.try_from (bits : Nat) : Except Vfs9Error OpenSubMode :=
  let mode : Nat := bits &&& 0b00000011
  match mode with
  | 0 => .ok .Read
  | 1 => .ok .Write
  | 2 => .ok .ReadWrite
  | 3 => .ok .Execute
  | _ => .error ⟨⟩

/-- An open request: submode plus the truncate (0x10) and rclose (0x40) flags. -/
structure OpenMode where
  submode : OpenSubMode
  truncate : Bool
  rclose : Bool
deriving DecidableEq, Fintype

/-- Decode an open-mode byte: submode from the low two bits via try_from,
then the two independent flag bits. -/
def OpenMode.from_bits (fields : Nat) : Except Vfs9Error OpenMode := do
  let sub ← OpenSubMode.try_from fields
  let s : OpenMode := { submode := sub, truncate := false, rclose := false }
  let s := if fields &&& 0b00010000 != 0 then { s with truncate := true } else s
  let s := if fields &&& 0b01000000 != 0 then { s with rclose := true } else s
  pure s

/-- Read, write and execute rights of one principal class. -/
structure IndividualPermissions where
  read : Bool
  write : Bool
  execute : Bool
deriving DecidableEq, Fintype

/-- Permission bits for owner, group and other, the low 9 bits of a mode word. -/
structure Permissions where
  owner : IndividualPermissions
  group : IndividualPermissions
  other : IndividualPermissions
deriving DecidableEq, Fintype

def BIT_OTHER_EXECUTE : Nat := 0b00000000000000000000000000000001

def BIT_OTHER_WRITE : Nat := 0b00000000000000000000000000000010

def BIT_OTHER_READ : Nat := 0b00000000000000000000000000000100

def BIT_GROUP_EXECUTE : Nat := BIT_OTHER_EXECUTE <<< 3

def BIT_GROUP_WRITE : Nat := BIT_OTHER_WRITE <<< 3

def BIT_GROUP_READ : Nat := BIT_OTHER_READ <<< 3

def BIT_OWNER_EXECUTE : Nat := BIT_GROUP_EXECUTE <<< 3

def BIT_OWNER_WRITE : Nat := BIT_GROUP_WRITE <<< 3

def BIT_OWNER_READ : Nat := BIT_GROUP_READ <<< 3

/-- Decode the nine permission bits of a 32-bit mode word; each field is set
iff the corresponding fixed mask tests nonzero. Never fails. -/
def Permissions.from_bits (fields : Nat) : Permissions where
  owner := { read := fields &&& BIT_OWNER_READ != 0,
             write := fields &&& BIT_OWNER_WRITE != 0,
             execute := fields &&& BIT_OWNER_EXECUTE != 0 }
  group := { read := fields &&& BIT_GROUP_READ != 0,
             write := fields &&& BIT_GROUP_WRITE != 0,
             execute := fields &&& BIT_GROUP_EXECUTE != 0 }
  other := { read := fields &&& BIT_OTHER_READ != 0,
             write := fields &&& BIT_OTHER_WRITE != 0,
             execute := fields &&& BIT_OTHER_EXECUTE != 0 }

/-- Encode nine permission booleans by conditionally OR-ing the same masks. -/
def Permissions.to_bits (p : Permissions) : Nat :=
  let b : Nat := 0x00000000
  let b := if p.other.execute then b ||| BIT_OTHER_EXECUTE else b
  let b := if p.other.write then b ||| BIT_OTHER_WRITE else b
  let b := if p.other.read then b ||| BIT_OTHER_READ else b
  let b := if p.group.execute then b ||| BIT_GROUP_EXECUTE else b
  let b := if p.group.write then b ||| BIT_GROUP_WRITE else b
  let b := if p.group.read then b ||| BIT_GROUP_READ else b
  let b := if p.owner.execute then b ||| BIT_OWNER_EXECUTE else b
  let b := if p.owner.write then b ||| BIT_OWNER_WRITE else b
  let b := if p.owner.read then b ||| BIT_OWNER_READ else b
  b

/-- Permissions and file type packed together into one 32-bit mode word. -/
structure FileMode where
  permissions : Permissions
  file_type : FileType
deriving DecidableEq

/-- Decode a 32-bit mode word: permissions from the low bits, file type from
the top byte. The % 256 models the truncating cast to u8 of the source. -/
def FileMode.from_bits (fields : Nat) : FileMode where
  permissions := Permissions.from_bits fields
  file_type := FileType.from_bits ((fields >>> 24) % 256)

/-- Encode a FileMode: the OR of both sub-encodings, the file-type byte
shifted into bits 24 to 31. -/
def FileMode.to_bits (m : FileMode) : Nat :=
  m.permissions.to_bits ||| m.file_type.to_bits <<< 24

/-- Numeric submode mapping table transcribed from the spec (0 = Read,
1 = Write, 2 = ReadWrite, 3 = Execute); stated separately from the code's
decoder so the decoder can be compared against it. -/
def specSubmodeMap : Nat → OpenSubMode
  | 0 => .Read
  | 1 => .Write
  | 2 => .ReadWrite
  | _ => .Execute

/-- Modelled from the spec: src declares File only as a trait, so the fid
lifecycle state machine it documents (section 4.8) has no implementation
under src; its two states are modelled here. A fid is Closed initially and
Open while an open is in effect. -/
inductive FidState where
  | Closed : FidState
  | Open : OpenMode → FidState
deriving DecidableEq

/-- Modelled from the spec: the mode observer of the File trait, returning
none in Closed and some m in Open m, without side effects. -/
def FidState.mode : FidState → Option OpenMode
  | .Closed => none
  | .Open m => some m

/-- Submodes that permit reading. -/
def readableSub : OpenSubMode → Bool
  | .Read => true
  | .ReadWrite => true
  | _ => false

/-- Submodes that permit writing. -/
def writableSub : OpenSubMode → Bool
  | .Write => true
  | .ReadWrite => true
  | _ => false

/-- Modelled from the spec: the open operation of the File trait. Valid only
from Closed; checksOk stands for the permission and exclusivity checks the
implementation performs, q and iounit for the values it returns. On failure
the state is unchanged. -/
def FidState.openStep (s : FidState) (m : OpenMode) (checksOk : Bool)
    (q : Qid) (iounit : Nat) : Except Vfs9Error (Qid × Nat) × FidState :=
  match s with
  | .Closed => if checksOk then (.ok (q, iounit), .Open m) else (.error ⟨⟩, .Closed)
  | .Open m0 => (.error ⟨⟩, .Open m0)

/-- Modelled from the spec: the read operation of the File trait. Valid only
in Open with a readable submode; ioOk stands for the underlying transfer
outcome and n for the byte count transferred. Never changes the fid state. -/
def FidState.readStep (s : FidState) (ioOk : Bool) (n : Nat) :
    Except Vfs9Error Nat × FidState :=
  match s with
  | .Closed => (.error ⟨⟩, .Closed)
  | .Open m => if readableSub m.submode && ioOk then (.ok n, .Open m) else (.error ⟨⟩, .Open m)

/-- Modelled from the spec: the write operation of the File trait. Valid only
in Open with a writable submode; ioOk stands for the underlying transfer
outcome and n for the byte count written. Never changes the fid state. -/
def FidState.writeStep (s : FidState) (ioOk : Bool) (n : Nat) :
    Except Vfs9Error Nat × FidState :=
  match s with
  | .Closed => (.error ⟨⟩, .Closed)
  | .Open m => if writableSub m.submode && ioOk then (.ok n, .Open m) else (.error ⟨⟩, .Open m)

/-- Modelled from the spec: the remove operation of the File trait. Valid
from any state; removalOk stands for the outcome of the removal itself.
The fid is clunked regardless, so the next state is always Closed. -/
def FidState.removeStep (_ : FidState) (removalOk : Bool) :
    Except Vfs9Error Unit × FidState :=
  (if removalOk then .ok () else .error ⟨⟩, .Closed)

/-- Masking before masking again with a submask of the first mask changes
nothing: the inner mask is absorbed. -/
theorem and_absorb (b mask m : Nat) (hm : mask &&& m = m) :
    b &&& mask &&& m = b &&& m := by
  apply Nat.eq_of_testBit_eq
  intro i
  have h := congrArg (fun x => Nat.testBit x i) hm
  simp only [Nat.testBit_and] at h ⊢
  cases hb : Nat.testBit b i <;> cases hk : Nat.testBit mask i <;>
    cases hm2 : Nat.testBit m i <;> simp_all

/-- Reduction mod 2 to the k only discards bits above a mask below 2 to the k. -/
theorem and_mod_two_pow (b m k : Nat) (hm : m < 2 ^ k) :
    b % 2 ^ k &&& m = b &&& m := by
  apply Nat.eq_of_testBit_eq
  intro i
  simp only [Nat.testBit_and, Nat.testBit_mod_two_pow]
  by_cases hi : i < k
  · simp [hi]
  · have hmb : Nat.testBit m i = false :=
      Nat.testBit_lt_two_pow
        (lt_of_lt_of_le hm (Nat.pow_le_pow_right (by norm_num) (le_of_not_lt hi)))
    simp [hi, hmb]

/-- Permission decoding only looks at the low nine bits. -/
theorem perm_from_bits_masked (b : Nat) :
    Permissions.from_bits b = Permissions.from_bits (b &&& 0x1FF) := by
  unfold Permissions.from_bits
  rw [and_absorb b 0x1FF BIT_OWNER_READ (by decide),
      and_absorb b 0x1FF BIT_OWNER_WRITE (by decide),
      and_absorb b 0x1FF BIT_OWNER_EXECUTE (by decide),
      and_absorb b 0x1FF BIT_GROUP_READ (by decide),
      and_absorb b 0x1FF BIT_GROUP_WRITE (by decide),
      and_absorb b 0x1FF BIT_GROUP_EXECUTE (by decide),
      and_absorb b 0x1FF BIT_OTHER_READ (by decide),
      and_absorb b 0x1FF BIT_OTHER_WRITE (by decide),
      and_absorb b 0x1FF BIT_OTHER_EXECUTE (by decide)]

/-- File-type decoding only looks at bits 7, 6, 5, 3 and 2. -/
theorem filetype_from_bits_masked (b : Nat) :
    FileType.from_bits b = FileType.from_bits (b &&& 0xEC) := by
  unfold FileType.from_bits
  rw [and_absorb b 0xEC 0b10000000 (by decide),
      and_absorb b 0xEC 0b01000000 (by decide),
      and_absorb b 0xEC 0b00100000 (by decide),
      and_absorb b 0xEC 0b00001000 (by decide),
      and_absorb b 0xEC 0b00000100 (by decide)]

set_option maxRecDepth 4000 in
/-- Exhaustive check: encode after decode is the identity on the low nine
bits of a permission word. -/
theorem perm_encode_decode_all :
    ∀ c : Nat, c < 512 → Permissions.to_bits (Permissions.from_bits c) = c := by
  decide

set_option maxRecDepth 4000 in
/-- Exhaustive check: encode after decode of a file-type byte keeps exactly
the five defined bits. -/
theorem filetype_encode_decode_all :
    ∀ c : Nat, c < 256 → FileType.to_bits (FileType.from_bits c) = c &&& 0xEC := by
  decide

/-- Permission encode after decode equals masking with the low nine bits. -/
theorem perm_to_bits_from_bits (b : Nat) :
    Permissions.to_bits (Permissions.from_bits b) = b &&& 0x1FF := by
  rw [perm_from_bits_masked b]
  exact perm_encode_decode_all _ (lt_of_le_of_lt Nat.and_le_right (by norm_num))

/-- File-type encode after decode equals masking with the five defined bits. -/
theorem filetype_to_bits_from_bits (b : Nat) :
    FileType.to_bits (FileType.from_bits b) = b &&& 0xEC := by
  rw [filetype_from_bits_masked b]
  rw [filetype_encode_decode_all _ (lt_of_le_of_lt Nat.and_le_right (by norm_num))]
  exact and_absorb b 0xEC 0xEC (by decide)

/-- Splitting a word into its low nine bits and its shifted defined
file-type bits agrees with masking the word by 0xEC0001FF. -/
theorem mask_split (f : Nat) :
    (f &&& 0x1FF ||| (f >>> 24 &&& 0xEC) <<< 24) &&& 0xEC0001FF =
      f &&& 0xEC0001FF := by
  apply Nat.eq_of_testBit_eq
  intro i
  by_cases h32 : i < 32
  · simp only [Nat.testBit_and, Nat.testBit_or, Nat.testBit_shiftLeft,
      Nat.testBit_shiftRight]
    interval_cases i <;> simp [Nat.testBit_to_div_mod]
  · have hm : Nat.testBit 0xEC0001FF i = false := by
      apply Nat.testBit_lt_two_pow
      calc (0xEC0001FF : Nat) < 2 ^ 32 := by norm_num
        _ ≤ 2 ^ i := Nat.pow_le_pow_right (by norm_num) (by omega)
    simp [Nat.testBit_and, hm]

/-- Derived structural equality of FileType decides propositional equality. -/
theorem FileType.beq_iff_eq (t u : FileType) : FileType.beq t u = true ↔ t = u := by
  revert t u
  decide

/-- C1 counterexample: the claimed mask 0xFF0001FF does not round-trip, shown
at the input 0x01000000 whose bit 24 is dropped by the FileType codec. -/
theorem filemode_mask_claim_counterexample :
    ¬ ((FileMode.from_bits 0x01000000).to_bits &&& 0xFF0001FF =
        0x01000000 &&& 0xFF0001FF) := by
  decide

/-- C1 (amended): decoding a 32-bit mode word with FileMode.from_bits and
re-encoding with to_bits preserves exactly the defined bits, mask 0xEC0001FF
(permission bits 0 to 8 and file-type bits 31, 30, 29, 27, 26); bits 28, 25
and 24 are skipped by the FileType codec and do not round-trip. -/
theorem filemode_roundtrip_defined_bits :
    ∀ fields : Nat,
      (FileMode.from_bits fields).to_bits &&& 0xEC0001FF =
        fields &&& 0xEC0001FF := by
  intro fields
  have h : (FileMode.from_bits fields).to_bits =
      Permissions.to_bits (Permissions.from_bits fields) |||
        FileType.to_bits (FileType.from_bits (fields >>> 24 % 256)) <<< 24 := rfl
  have h256 : fields >>> 24 % 256 &&& 0xEC = fields >>> 24 &&& 0xEC := by
    have e : (256 : Nat) = 2 ^ 8 := by norm_num
    rw [e]
    exact and_mod_two_pow (fields >>> 24) 0xEC 8 (by norm_num)
  rw [h, perm_to_bits_from_bits, filetype_to_bits_from_bits, h256]
  exact mask_split fields

set_option maxRecDepth 4000 in
/-- C2: the Permissions codec round-trips in both directions: decoding any
encoded value gives it back, and encoding any decoded 9-bit word (high 23
bits zero) gives the word back. -/
theorem permissions_codec_roundtrip :
    (∀ p : Permissions, Permissions.from_bits (Permissions.to_bits p) = p) ∧
    (∀ b : Nat, b < 512 → Permissions.to_bits (Permissions.from_bits b) = b) := by
  exact ⟨by decide, perm_encode_decode_all⟩

/-- C2 witness: the codec round-trips at the concrete word 0o755. -/
theorem permissions_codec_roundtrip_witness :
    Permissions.to_bits (Permissions.from_bits 0o755) = 0o755 :=
  permissions_codec_roundtrip.2 0o755 (by decide)

set_option maxRecDepth 4000 in
/-- C3: the FileType codec round-trips over its 5-bit effective domain
(bytes with bits 4, 1, 0 clear), decoding an encoded value gives it back,
and bits 4, 1 and 0 of any encoded byte are zero. -/
theorem filetype_codec_roundtrip :
    (∀ b : Nat, b < 256 → b &&& 0b00010011 = 0 →
        FileType.to_bits (FileType.from_bits b) = b) ∧
    (∀ f : FileType, FileType.from_bits (FileType.to_bits f) = f) ∧
    (∀ f : FileType, FileType.to_bits f &&& 0b00010011 = 0) := by
  exact ⟨by decide, by decide, by decide⟩

/-- C3 witness: the byte 0xEC, all five defined bits set, round-trips. -/
theorem filetype_codec_roundtrip_witness :
    FileType.to_bits (FileType.from_bits 0xEC) = 0xEC :=
  filetype_codec_roundtrip.1 0xEC (by decide) (by decide)

set_option maxRecDepth 4000 in
/-- C4: OpenMode decoding is total on every 8-bit input; the InvalidSubmode
error branch is unreachable because the masked two-bit submode is always one
of the four defined values, so from_bits always returns ok. -/
theorem openmode_decode_total :
    ∀ fields : Nat, fields < 256 → (OpenMode.from_bits fields).isOk = true := by
  decide

/-- C4 witness: decoding the all-ones byte succeeds. -/
theorem openmode_decode_total_witness : (OpenMode.from_bits 0xFF).isOk = true :=
  openmode_decode_total 0xFF (by decide)

set_option maxRecDepth 4000 in
/-- C5: from_bits maps the low two bits through the table 0 = Read,
1 = Write, 2 = ReadWrite, 3 = Execute, sets truncate iff bit 0x10 is set and
rclose iff bit 0x40 is set; in particular 0x00 decodes to Read with both
flags clear and 0x51 decodes to Write with truncate and rclose set. -/
theorem openmode_decode_mapping :
    (∀ fields : Nat, fields < 256 →
        OpenMode.from_bits fields = Except.ok
          { submode := specSubmodeMap (fields &&& 0b11),
            truncate := fields &&& 0x10 != 0,
            rclose := fields &&& 0x40 != 0 }) ∧
    OpenMode.from_bits 0x00 = Except.ok
      { submode := OpenSubMode.Read, truncate := false, rclose := false } ∧
    OpenMode.from_bits 0x51 = Except.ok
      { submode := OpenSubMode.Write, truncate := true, rclose := true } := by
  exact ⟨by decide, by decide, by decide⟩

/-- C5 witness: 0x33 decodes to Execute with truncate set and rclose clear. -/
theorem openmode_decode_mapping_witness :
    OpenMode.from_bits 0x33 = Except.ok
      { submode := specSubmodeMap (0x33 &&& 0b11),
        truncate := 0x33 &&& 0x10 != 0,
        rclose := 0x33 &&& 0x40 != 0 } :=
  openmode_decode_mapping.1 0x33 (by decide)

/-- C6: FileMode decoding is the composition of the two sub-codecs, the
file-type byte taken from bits 24 and up (the truncating cast to u8 is the
identity for 32-bit inputs), and encoding is the OR of the sub-encodings
with the file-type byte shifted up by 24. -/
theorem filemode_codec_composes :
    (∀ fields : Nat, fields < 2 ^ 32 →
        FileMode.from_bits fields =
          { permissions := Permissions.from_bits fields,
            file_type := FileType.from_bits (fields >>> 24) }) ∧
    (∀ m : FileMode,
        FileMode.to_bits m = m.permissions.to_bits ||| m.file_type.to_bits <<< 24) := by
  constructor
  · intro fields h
    unfold FileMode.from_bits
    have h1 : fields >>> 24 < 256 := by
      rw [Nat.shiftRight_eq_div_pow]
      rw [Nat.div_lt_iff_lt_mul (by norm_num)]
      have e : (256 : Nat) * 2 ^ 24 = 2 ^ 32 := by norm_num
      rw [e]
      exact h
    rw [Nat.mod_eq_of_lt h1]
  · intro m
    rfl

/-- C6 witness: the decomposition at the concrete word 0xABCDEF12. -/
theorem filemode_codec_composes_witness :
    FileMode.from_bits 0xABCDEF12 =
      { permissions := Permissions.from_bits 0xABCDEF12,
        file_type := FileType.from_bits (0xABCDEF12 >>> 24) } :=
  filemode_codec_composes.1 0xABCDEF12 (by decide)

/-- C7: the derived equality of Qid is exactly componentwise equality of
file_type, version and path, where FileType equality is equality of all
five boolean flags. -/
theorem qid_eq_componentwise :
    (∀ t u : FileType, FileType.beq t u = true ↔
        (t.is_dir = u.is_dir ∧ t.is_append_only = u.is_append_only ∧
         t.is_exclusive = u.is_exclusive ∧ t.is_auth = u.is_auth ∧
         t.is_temporary = u.is_temporary)) ∧
    (∀ q r : Qid, Qid.beq q r = true ↔
        (q.file_type = r.file_type ∧ q.version = r.version ∧ q.path = r.path)) := by
  constructor
  · decide
  · intro q r
    simp [Qid.beq, Bool.and_eq_true, FileType.beq_iff_eq, and_assoc]

/-- C8: remove transitions the fid to Closed from every state regardless of
the removal outcome, so mode subsequently yields none; open leaves the state
unchanged whenever it fails, and read and write never change the state at
all, so no capability operation other than remove has an effect on failure. -/
theorem file_remove_always_closes :
    (∀ (s : FidState) (ok : Bool),
        (FidState.removeStep s ok).2 = FidState.Closed ∧
        (FidState.removeStep s ok).2.mode = none) ∧
    (∀ (s : FidState) (m : OpenMode) (c : Bool) (q : Qid) (u : Nat),
        (FidState.openStep s m c q u).1.isOk = false →
        (FidState.openStep s m c q u).2 = s) ∧
    (∀ (s : FidState) (io : Bool) (n : Nat), (FidState.readStep s io n).2 = s) ∧
    (∀ (s : FidState) (io : Bool) (n : Nat), (FidState.writeStep s io n).2 = s) := by
  refine ⟨fun s ok => ⟨rfl, rfl⟩, ?_, ?_, ?_⟩
  · intro s m c q u h
    cases s with
    | Closed =>
      cases c with
      | true => simp [FidState.openStep, Except.isOk, Except.toBool] at h
      | false => rfl
    | Open m0 => rfl
  · intro s io n
    cases s with
    | Closed => rfl
    | Open m =>
      cases hcond : readableSub m.submode && io <;>
        simp [FidState.readStep, hcond]
  · intro s io n
    cases s with
    | Closed => rfl
    | Open m =>
      cases hcond : writableSub m.submode && io <;>
        simp [FidState.writeStep, hcond]

/-- C8 witness: a failing open from an already-open fid leaves the fid open
with its original mode. -/
theorem file_remove_always_closes_witness :
    (FidState.openStep
        (FidState.Open { submode := OpenSubMode.Read, truncate := false, rclose := false })
        { submode := OpenSubMode.Write, truncate := false, rclose := false }
        true
        { file_type := FileType.from_bits 0, version := 0, path := 0 }
        0).2 =
      FidState.Open { submode := OpenSubMode.Read, truncate := false, rclose := false } :=
  file_remove_always_closes.2.1
    (FidState.Open { submode := OpenSubMode.Read, truncate := false, rclose := false })
    { submode := OpenSubMode.Write, truncate := false, rclose := false }
    true
    { file_type := FileType.from_bits 0, version := 0, path := 0 }
    0 (by decide)

set_option maxRecDepth 4000 in
/-- C9: Permissions decoding ignores the 23 high bits of its input, and every
encoded Permissions value is below 512. -/
theorem permissions_high_bits_ignored :
    (∀ b : Nat, Permissions.from_bits b = Permissions.from_bits (b &&& 0x1FF)) ∧
    (∀ p : Permissions, Permissions.to_bits p < 512) := by
  exact ⟨perm_from_bits_masked, by decide⟩

set_option maxRecDepth 4000 in
/-- C10: OpenMode decoding depends only on bits 0x01, 0x02, 0x10 and 0x40;
masking any byte with 0x53 decodes identically. -/
theorem openmode_unused_bits_ignored :
    ∀ b : Nat, b < 256 → OpenMode.from_bits b = OpenMode.from_bits (b &&& 0x53) := by
  decide

/-- C10 witness: the all-ones byte decodes like its masked form 0x53. -/
theorem openmode_unused_bits_ignored_witness :
    OpenMode.from_bits 0xFF = OpenMode.from_bits (0xFF &&& 0x53) :=
  openmode_unused_bits_ignored 0xFF (by decide)
